import Mathlib

/-!
Verification of the concentrated-liquidity swap simulation engine
(Uniswap-V3-style quote computation, Go package `api`, file with
`CalculateQuoteV3` / `swapExactInput` / `computeSwapStep` /
`calculateMinAmountInToCrossTick` / `getSqrtPriceAtTick` /
`getTickAtSqrtPrice` / `sqrtPriceX96ToPrice`).

Modelling conventions:
- Go `big.Int` values are modelled by `Int`.  `big.Int.Div` implements
  Euclidean division (quotient such that the remainder is non-negative),
  which is exactly `Int.ediv`; the model returns 0 on division by zero
  where the Go runtime would panic (no theorem below depends on a
  division-by-zero input unless stated in its doc comment).
- The tick-to-price conversion `getSqrtPriceAtTick` and the positive
  branch of `getTickAtSqrtPrice` are float64 transcendental computations
  (`math.Pow` / `math.Log`); they are modelled as abstract integer-valued
  parameters of the engine (`SwapEnv.sqrtAtTick`, `SwapEnv.logTick`),
  since the swap loop treats them as black boxes.
- The database-backed tick lookups (`getNextInitializedTick`'s SQL query
  and `getTickInfo`) are modelled by a `TickProvider` capability with
  `Option`-valued results, the `none` case being "no row found".
-/

set_option maxRecDepth 10000

namespace DexQuote

/-- The Q96 fixed-point scaling constant `2^96` (`Q96` in the source,
recomputed at the top of each function). -/
def Q96 : Int := 2 ^ 96

/-- `TickInfo` from the source: one boundary tick's liquidity data. -/
structure TickInfo where
  tickIndex : Int
  liquidityGross : Int
  liquidityNet : Int
deriving Repr, DecidableEq

/-- The numeric fields of `PoolState` used by the swap engine
(`Address`/`Token0`/`Token1`/`Reserve0`/`Reserve1` are strings or unused
by the computation and are omitted; the direction flag derived from the
token-address comparison is passed separately). -/
structure PoolState where
  fee : Int
  liquidity : Int
  sqrtPriceX96 : Int
  tick : Int
deriving Repr, DecidableEq

/-- The external tick-data source: `nextInit fromTick direction` models
the `getNextInitializedTick` SQL query (first initialized tick strictly
beyond `fromTick` in `direction`, `none` when no row matches) and
`getTick t` models `getTickInfo` (`none` when the row is missing, i.e.
the Go call returns an error). -/
structure TickProvider where
  nextInit : Int → Int → Option Int
  getTick : Int → Option TickInfo

/-- The engine's environment: the two float-based tick/price conversions
as abstract integer functions, plus the tick-data source.
`sqrtAtTick` models `getSqrtPriceAtTick`; `logTick` models the positive
branch of `getTickAtSqrtPrice`. -/
structure SwapEnv where
  sqrtAtTick : Int → Int
  logTick : Int → Int
  tp : TickProvider

/-- Result triple of `computeSwapStep`:
`(amountInConsumed, amountOut, reachedTarget)`. -/
structure StepResult where
  amountIn : Int
  amountOut : Int
  reached : Bool
deriving Repr, DecidableEq

/-- `computeSwapStep` from the source: the single-interval swap step.
Computes, for the interval between the current and target sqrt prices
with the given liquidity, the input consumed, the output produced and
whether the target price was reached, in both directions.  All
divisions are `big.Int` Euclidean divisions (`Int.ediv`). -/
def computeSwapStep (sqrtPriceCurrentX96 sqrtPriceTargetX96 liquidity amountRemaining : Int)
    (zeroForOne : Bool) : StepResult :=
  if liquidity = 0 then ⟨0, 0, false⟩
  else if zeroForOne then
    if sqrtPriceCurrentX96 ≤ sqrtPriceTargetX96 then ⟨0, 0, false⟩
    else
      let sqrtPriceDiff := sqrtPriceCurrentX96 - sqrtPriceTargetX96
      let amountOutReach := Int.ediv (liquidity * sqrtPriceDiff) Q96
      let amountInDenominator := Int.ediv (sqrtPriceCurrentX96 * sqrtPriceTargetX96) Q96
      let amountInReach := Int.ediv (liquidity * sqrtPriceDiff * Q96) amountInDenominator
      if amountInReach ≤ amountRemaining then ⟨amountInReach, amountOutReach, true⟩
      else
        let denominator := liquidity * Q96 + amountRemaining * sqrtPriceCurrentX96
        let numerator := liquidity * sqrtPriceCurrentX96 * Q96
        let sqrtPriceNewX96 := Int.ediv numerator denominator
        let sqrtPriceNewX96' :=
          if sqrtPriceNewX96 < sqrtPriceTargetX96 then sqrtPriceTargetX96 else sqrtPriceNewX96
        let sqrtPriceDiffActual := sqrtPriceCurrentX96 - sqrtPriceNewX96'
        let sqrtPriceDiffActual' :=
          if sqrtPriceDiffActual < 0 then 0 else sqrtPriceDiffActual
        ⟨amountRemaining, Int.ediv (liquidity * sqrtPriceDiffActual') Q96, false⟩
  else
    if sqrtPriceTargetX96 ≤ sqrtPriceCurrentX96 then ⟨0, 0, false⟩
    else
      let sqrtPriceDiff := sqrtPriceTargetX96 - sqrtPriceCurrentX96
      let amountInReach := Int.ediv (liquidity * sqrtPriceDiff) Q96
      if amountInReach ≤ amountRemaining then
        let denominator := Int.ediv (sqrtPriceCurrentX96 * sqrtPriceTargetX96) Q96
        ⟨amountInReach, Int.ediv (liquidity * sqrtPriceDiff * Q96) denominator, true⟩
      else
        let sqrtPriceDiffActual := Int.ediv (amountRemaining * Q96) liquidity
        let sqrtPriceDiffActual' :=
          if sqrtPriceDiff < sqrtPriceDiffActual then sqrtPriceDiff else sqrtPriceDiffActual
        let sqrtPriceNewX96 := sqrtPriceCurrentX96 + sqrtPriceDiffActual'
        let denominator := Int.ediv (sqrtPriceCurrentX96 * sqrtPriceNewX96) Q96
        ⟨amountRemaining, Int.ediv (liquidity * sqrtPriceDiffActual' * Q96) denominator, false⟩

/-- `calculateMinAmountInToCrossTick` from the source: the minimum input
amount needed to push the price all the way to the next tick's price
(the TickCrossingThreshold).  The formulas textually duplicate the
reach-amount formulas inside `computeSwapStep`. -/
def calculateMinAmountInToCrossTick (sqrtPriceCurrentX96 sqrtPriceNextX96 liquidity : Int)
    (zeroForOne : Bool) : Int :=
  if liquidity = 0 then 0
  else if zeroForOne then
    if sqrtPriceCurrentX96 ≤ sqrtPriceNextX96 then 0
    else
      let sqrtPriceDiff := sqrtPriceCurrentX96 - sqrtPriceNextX96
      let denominator := Int.ediv (sqrtPriceCurrentX96 * sqrtPriceNextX96) Q96
      Int.ediv (liquidity * sqrtPriceDiff * Q96) denominator
  else
    if sqrtPriceNextX96 ≤ sqrtPriceCurrentX96 then 0
    else
      Int.ediv (liquidity * (sqrtPriceNextX96 - sqrtPriceCurrentX96)) Q96

/-- `getNextInitializedTick` from the source: the first initialized tick
beyond `currentTick` in `direction` if the query finds one, else the
spacing-derived fallback neighbor `currentTick + direction * tickSpacing`. -/
def getNextInitializedTick (tp : TickProvider) (currentTick direction tickSpacing : Int) : Int :=
  match tp.nextInit currentTick direction with
  | some t => t
  | none => currentTick + direction * tickSpacing

/-- `getTickAtSqrtPrice` from the source.  The source converts
`sqrtPriceX96 / 2^96` to a float, squares it, and — only when the
squared price is `> 0` — computes `int64(log(price) / log(1.0001))`;
otherwise the initial value `0.0` is returned.  For any nonzero integer
input the squared float is positive (the smallest possible magnitude,
`(1/2^96)^2 = 2^-192`, is far above float64 underflow), and for input
`0` it is exactly `0`, so the guard fails and tick `0` is returned.
The positive branch (a transcendental float64 computation) is the
abstract parameter `logTick`.  The Go signature returns a plain `int64`:
there is no error channel. -/
def getTickAtSqrtPrice (logTick : Int → Int) (sqrtPriceX96 : Int) : Int :=
  if sqrtPriceX96 = 0 then 0 else logTick sqrtPriceX96

/-- `sqrtPriceX96ToPrice` from the source:
`price = (sqrtPriceX96 / 2^96)^2` truncated to an integer, modelled with
exact integer arithmetic in place of the `big.Float` rounding (exact at
the concrete inputs used below).  The `if !isToken0` branch in the
source is empty (the token1-denominated inversion is left
unimplemented, "这里简化处理，返回原始值"), so the flag is unused. -/
def sqrtPriceX96ToPrice (sqrtPriceX96 : Int) (isToken0 : Bool) : Int :=
  Int.ediv (sqrtPriceX96 * sqrtPriceX96) (2 ^ 192)

/-- The tick-spacing lookup at the top of `swapExactInput`: fee tier in
parts-per-million to tick spacing, defaulting to 1. -/
def tickSpacingOfFee (fee : Int) : Int :=
  if fee = 100 then 1
  else if fee = 500 then 10
  else if fee = 3000 then 60
  else if fee = 10000 then 200
  else 1

/-- The mutable loop state of `swapExactInput`
(`currentSqrtPriceX96` / `currentLiquidity` / `currentTick` /
`amountRemaining` / `amountOut` / `crossedTicks`). -/
structure SwapState where
  sqrtPrice : Int
  liquidity : Int
  tick : Int
  amountRemaining : Int
  amountOut : Int
  crossedTicks : Nat
deriving Repr, DecidableEq

/-- Loop step 1: the boundary tick of the current interval
(`nextTick` in the source), with `tickDirection = -1` when
`zeroForOne` and `1` otherwise. -/
def nextTickOf (env : SwapEnv) (zeroForOne : Bool) (tickSpacing : Int) (s : SwapState) : Int :=
  getNextInitializedTick env.tp s.tick (if zeroForOne then -1 else 1) tickSpacing

/-- Loop step 2: the target sqrt price of the current interval
(`sqrtPriceNextX96` in the source).  Source lines 342-349: the price of
`nextTick` when the price decreases, but the price of
`nextTick + tickSpacing` when the price increases. -/
def targetPriceOf (env : SwapEnv) (zeroForOne : Bool) (tickSpacing : Int) (s : SwapState) : Int :=
  if zeroForOne then env.sqrtAtTick (nextTickOf env zeroForOne tickSpacing s)
  else env.sqrtAtTick (nextTickOf env zeroForOne tickSpacing s + tickSpacing)

/-- Loop step 3: the `computeSwapStep` call of the current iteration. -/
def stepOf (env : SwapEnv) (zeroForOne : Bool) (tickSpacing : Int) (s : SwapState) : StepResult :=
  computeSwapStep s.sqrtPrice (targetPriceOf env zeroForOne tickSpacing s)
    s.liquidity s.amountRemaining zeroForOne

/-- Loop step 5 (crossing case): the liquidity update at a crossed
boundary.  When `getTickInfo` finds the tick, `liquidityNet` is
subtracted (decreasing direction) or added (increasing direction) and
the result is clamped at a zero floor; when the row is missing
(`getTickInfo` errors), liquidity is left unchanged. -/
def crossLiquidity (env : SwapEnv) (zeroForOne : Bool) (s : SwapState) (nextTick : Int) : Int :=
  match env.tp.getTick nextTick with
  | some ti =>
      let l := if zeroForOne then s.liquidity - ti.liquidityNet else s.liquidity + ti.liquidityNet
      if l < 0 then 0 else l
  | none => s.liquidity

/-- Loop step 6 (stalled case): the in-interval price update of the
source (lines 478-492) — decreasing direction subtracts
`amountOut * Q96 / L`, increasing direction adds `amountIn * Q96 / L`,
in both cases only when the current liquidity is positive. -/
def stalledPrice (zeroForOne : Bool) (s : SwapState) (step : StepResult) : Int :=
  if zeroForOne then
    if 0 < s.liquidity then s.sqrtPrice - Int.ediv (step.amountOut * Q96) s.liquidity
    else s.sqrtPrice
  else
    if 0 < s.liquidity then s.sqrtPrice + Int.ediv (step.amountIn * Q96) s.liquidity
    else s.sqrtPrice

/-- One iteration of the `swapExactInput` loop body: returns the updated
state and whether the loop continues (`true` exactly when the step
reached the boundary; a stalled step breaks out of the loop).  The
threshold logged via `calculateMinAmountInToCrossTick` at lines 359-369
does not affect the state and is omitted.  The output accumulation and
remaining-input decrement (step 4) are unconditional. -/
def swapIter (env : SwapEnv) (zeroForOne : Bool) (tickSpacing : Int) (s : SwapState) :
    SwapState × Bool :=
  let nextTick := nextTickOf env zeroForOne tickSpacing s
  let sqrtPriceNextX96 := targetPriceOf env zeroForOne tickSpacing s
  let step := stepOf env zeroForOne tickSpacing s
  let amountOut := s.amountOut + step.amountOut
  let amountRemaining := s.amountRemaining - step.amountIn
  if step.reached then
    (⟨sqrtPriceNextX96, crossLiquidity env zeroForOne s nextTick, nextTick,
      amountRemaining, amountOut, s.crossedTicks + 1⟩, true)
  else
    (⟨stalledPrice zeroForOne s step, s.liquidity, s.tick,
      amountRemaining, amountOut, s.crossedTicks⟩, false)

/-- The `swapExactInput` traversal loop: iterate `swapIter` while
`amountRemaining > 0` and the iteration budget (`fuel`, starting at
`maxIterations`) is not exhausted; a stalled step breaks.  Also returns
the number of iterations executed. -/
def swapLoop (env : SwapEnv) (zeroForOne : Bool) (tickSpacing : Int) :
    Nat → SwapState → SwapState × Nat
  | 0, s => (s, 0)
  | fuel + 1, s =>
    if 0 < s.amountRemaining then
      let p := swapIter env zeroForOne tickSpacing s
      if p.2 then
        let q := swapLoop env zeroForOne tickSpacing fuel p.1
        (q.1, q.2 + 1)
      else (p.1, 1)
    else (s, 0)

/-- `maxIterations := 1000` from the source ("防止无限循环"). -/
def maxIterations : Nat := 1000

/-- `SwapResult` from the source. -/
structure SwapResult where
  amountOut : Int
  newSqrtPriceX96 : Int
  newTick : Int
  crossedTicks : Nat
deriving Repr, DecidableEq

/-- `swapExactInput` from the source: set up the loop state from the
pool snapshot and the fee-adjusted input, run the traversal loop, and
recompute the final tick from the final price via `getTickAtSqrtPrice`. -/
def swapExactInput (env : SwapEnv) (poolState : PoolState) (amountInAfterFee : Int)
    (zeroForOne : Bool) : SwapResult :=
  let tickSpacing := tickSpacingOfFee poolState.fee
  let final := (swapLoop env zeroForOne tickSpacing maxIterations
    ⟨poolState.sqrtPriceX96, poolState.liquidity, poolState.tick, amountInAfterFee, 0, 0⟩).1
  ⟨final.amountOut, final.sqrtPrice,
    getTickAtSqrtPrice env.logTick final.sqrtPrice, final.crossedTicks⟩

/-- The error cases of `CalculateQuoteV3` (each a distinct formatted Go
error), in source order: zero pool liquidity, zero pool price, a
non-positive parsed input amount, and a fee deduction exhausting the
input.  The database errors and the unparseable-string error concern
the external collaborator and are outside the model. -/
inductive QuoteError where
  | zeroLiquidity
  | zeroPrice
  | invalidAmountIn
  | feeExhausted
deriving Repr, DecidableEq

/-- `QuoteResult` from the source (`priceImpact` is a float64 in the
source; it is modelled as the exact rational the float computation
approximates). -/
structure QuoteResult where
  amountOut : Int
  amountIn : Int
  priceImpact : ℚ
  newSqrtPriceX96 : Int
  newTick : Int
  initialPrice : Int
  finalPrice : Int
  crossedTicks : Nat
deriving Repr, DecidableEq

/-- `CalculateQuoteV3` from the source, after the pool snapshot has been
fetched and the input parsed: the guard chain, the fee deduction
(`amountIn * (1000000 - fee) / 1000000`), the swap, and the quote
assembly.  The price impact is computed only when `initialPrice > 0`
(`initialPrice.Cmp(big.NewInt(0)) > 0`); otherwise the initial value
`0.0` is kept and the function still returns a successful result. -/
def calculateQuoteV3 (env : SwapEnv) (poolState : PoolState) (isToken0 : Bool) (amountIn : Int) :
    Except QuoteError QuoteResult :=
  if poolState.liquidity = 0 then .error .zeroLiquidity
  else if poolState.sqrtPriceX96 = 0 then .error .zeroPrice
  else if amountIn ≤ 0 then .error .invalidAmountIn
  else
    let amountInAfterFee := Int.ediv (amountIn * (1000000 - poolState.fee)) 1000000
    if amountInAfterFee ≤ 0 then .error .feeExhausted
    else
      let initialPrice := sqrtPriceX96ToPrice poolState.sqrtPriceX96 isToken0
      let result := swapExactInput env poolState amountInAfterFee isToken0
      let finalPrice := sqrtPriceX96ToPrice result.newSqrtPriceX96 isToken0
      let priceImpact : ℚ :=
        if 0 < initialPrice then
          ((finalPrice : ℚ) - (initialPrice : ℚ)) / (initialPrice : ℚ) * 100
        else 0
      .ok ⟨result.amountOut, amountIn, priceImpact, result.newSqrtPriceX96, result.newTick,
        initialPrice, finalPrice, result.crossedTicks⟩

/-! ## Basic facts about the fixed-point constant and the swap step -/

theorem Q96_pos : 0 < Q96 := by
  unfold Q96; positivity

/-- Whatever the inputs, the input consumed by a step never exceeds the
remaining input: a reaching step consumes the reach amount (which the
branch condition bounds by the remainder), a stalled step consumes the
remainder exactly, and a degenerate step consumes nothing. -/
theorem computeSwapStep_amountIn_le (c t L r : Int) (z : Bool) (hr : 0 ≤ r) :
    (computeSwapStep c t L r z).amountIn ≤ r := by
  unfold computeSwapStep
  split_ifs <;> simp_all <;> split_ifs <;> simp_all

/-- With non-negative liquidity, positive prices and a non-negative
remainder, a step never consumes a negative amount of input. -/
theorem computeSwapStep_amountIn_nonneg (c t L r : Int) (z : Bool)
    (hL : 0 ≤ L) (hc : 0 < c) (ht : 0 < t) (hr : 0 ≤ r) :
    0 ≤ (computeSwapStep c t L r z).amountIn := by
  have hQ : (0:Int) ≤ Q96 := Q96_pos.le
  have hrq : 0 ≤ Int.ediv (r * Q96) L := Int.ediv_nonneg (mul_nonneg hr hQ) hL
  simp only [computeSwapStep]
  split_ifs
  all_goals dsimp only
  all_goals first
    | omega
    | (apply Int.ediv_nonneg <;> first
        | omega
        | (apply mul_nonneg <;> first | omega | (apply mul_nonneg <;> omega))
        | (apply Int.ediv_nonneg <;> first | omega | (apply mul_nonneg <;> omega)))

/-- With non-negative liquidity, positive prices and a non-negative
remainder, a step never produces a negative amount of output. -/
theorem computeSwapStep_amountOut_nonneg (c t L r : Int) (z : Bool)
    (hL : 0 ≤ L) (hc : 0 < c) (ht : 0 < t) (hr : 0 ≤ r) :
    0 ≤ (computeSwapStep c t L r z).amountOut := by
  have hQ : (0:Int) ≤ Q96 := Q96_pos.le
  have hrq : 0 ≤ Int.ediv (r * Q96) L := Int.ediv_nonneg (mul_nonneg hr hQ) hL
  simp only [computeSwapStep]
  split_ifs
  all_goals dsimp only
  all_goals first
    | omega
    | (apply Int.ediv_nonneg <;> first
        | omega
        | (apply mul_nonneg <;> first | omega | (apply mul_nonneg <;> omega))
        | (apply Int.ediv_nonneg <;> first | omega | (apply mul_nonneg <;> omega)))

/-! ## C2: a reaching step consumes exactly the crossing threshold -/

/-- Claim C2: whenever `computeSwapStep` reports that the target was
reached, the `amountInConsumed` it returns is exactly the value of
`calculateMinAmountInToCrossTick` (the TickCrossingThreshold) on the
same current price, target price, liquidity and direction, in both
trade directions. -/
theorem computeSwapStep_reached_eq_threshold (c t L r : Int) (z : Bool)
    (h : (computeSwapStep c t L r z).reached = true) :
    (computeSwapStep c t L r z).amountIn = calculateMinAmountInToCrossTick c t L z := by
  unfold computeSwapStep calculateMinAmountInToCrossTick at *
  split_ifs at * <;> simp_all <;> split_ifs at * <;> simp_all

/-- Witness for C2 at a concrete reaching step: current price `2·2^96`,
target price `2^96`, liquidity `10^6`, remainder `10^40`, decreasing
direction. -/
theorem computeSwapStep_reached_eq_threshold_witness :
    (computeSwapStep (2 * 2 ^ 96) (2 ^ 96) 1000000 (10 ^ 40) true).reached = true ∧
    (computeSwapStep (2 * 2 ^ 96) (2 ^ 96) 1000000 (10 ^ 40) true).amountIn =
      calculateMinAmountInToCrossTick (2 * 2 ^ 96) (2 ^ 96) 1000000 true :=
  ⟨by decide,
   computeSwapStep_reached_eq_threshold (2 * 2 ^ 96) (2 ^ 96) 1000000 (10 ^ 40) true (by decide)⟩

/-! ## C3: the tie-break rule for reaching the target -/

/-- Claim C3: with positive liquidity and correctly ordered prices for
the trade direction, `computeSwapStep` reports `reachedTarget = true`
if and only if the input required to reach the target price (the
crossing threshold) is at most `amountRemaining` — a non-strict
comparison, so exact equality counts as reaching — in both directions. -/
theorem computeSwapStep_reached_iff_threshold_le (c t L r : Int) (z : Bool)
    (hL : 0 < L) (hord : if z then t < c else c < t) :
    ((computeSwapStep c t L r z).reached = true ↔
      calculateMinAmountInToCrossTick c t L z ≤ r) := by
  unfold computeSwapStep calculateMinAmountInToCrossTick
  split_ifs <;> (try simp_all) <;> (try split_ifs) <;> (try simp_all) <;> omega

/-- Witness for C3: the same concrete step as the C2 witness, for which
the threshold is at most the remainder, plus an increasing-direction
instance in which it is not. -/
theorem computeSwapStep_reached_iff_threshold_le_witness :
    (0 < (1000000 : Int) ∧ (if true then (2 ^ 96 : Int) < 2 * 2 ^ 96 else (2 * 2 ^ 96 : Int) < 2 ^ 96) ∧
      ((computeSwapStep (2 * 2 ^ 96) (2 ^ 96) 1000000 (10 ^ 40) true).reached = true ↔
        calculateMinAmountInToCrossTick (2 * 2 ^ 96) (2 ^ 96) 1000000 true ≤ 10 ^ 40)) ∧
    (0 < (1000000 : Int) ∧ (if false then (2 * 2 ^ 96 : Int) < 2 ^ 96 else (2 ^ 96 : Int) < 2 * 2 ^ 96) ∧
      ((computeSwapStep (2 ^ 96) (2 * 2 ^ 96) 1000000 3 false).reached = true ↔
        calculateMinAmountInToCrossTick (2 ^ 96) (2 * 2 ^ 96) 1000000 false ≤ 3)) :=
  ⟨⟨by decide, by decide,
    computeSwapStep_reached_iff_threshold_le (2 * 2 ^ 96) (2 ^ 96) 1000000 (10 ^ 40) true
      (by decide) (by decide)⟩,
   ⟨by decide, by decide,
    computeSwapStep_reached_iff_threshold_le (2 ^ 96) (2 * 2 ^ 96) 1000000 3 false
      (by decide) (by decide)⟩⟩

/-! ## Unfolding lemmas for one loop iteration -/

/-- The loop continues after an iteration exactly when its step reached
the boundary. -/
theorem swapIter_snd (env : SwapEnv) (z : Bool) (sp : Int) (s : SwapState) :
    (swapIter env z sp s).2 = (stepOf env z sp s).reached := by
  unfold swapIter
  cases h : (stepOf env z sp s).reached <;> simp [h]

/-- The state after a crossing iteration: price set to the interval's
target price, liquidity updated through `crossLiquidity`, tick set to
the boundary tick, remainder decremented, output accumulated, crossing
counter incremented. -/
theorem swapIter_reached (env : SwapEnv) (z : Bool) (sp : Int) (s : SwapState)
    (h : (stepOf env z sp s).reached = true) :
    (swapIter env z sp s).1 =
      ⟨targetPriceOf env z sp s, crossLiquidity env z s (nextTickOf env z sp s),
        nextTickOf env z sp s, s.amountRemaining - (stepOf env z sp s).amountIn,
        s.amountOut + (stepOf env z sp s).amountOut, s.crossedTicks + 1⟩ := by
  unfold swapIter
  simp [h]

/-- The state after a stalled (non-crossing) iteration: price moved to
the in-interval value, liquidity and tick unchanged, remainder
decremented, output accumulated, crossing counter unchanged. -/
theorem swapIter_stalled (env : SwapEnv) (z : Bool) (sp : Int) (s : SwapState)
    (h : (stepOf env z sp s).reached = false) :
    (swapIter env z sp s).1 =
      ⟨stalledPrice z s (stepOf env z sp s), s.liquidity, s.tick,
        s.amountRemaining - (stepOf env z sp s).amountIn,
        s.amountOut + (stepOf env z sp s).amountOut, s.crossedTicks⟩ := by
  unfold swapIter
  simp [h]

/-! ## C10: crossings of uninitialized boundaries -/

/-- Claim C10: a reaching step always increments `crossedTicks`, and
when the tick-data source has no `TickInfo` record for the crossed
boundary (including the spacing-derived fallback neighbor), the current
liquidity is left unchanged by the crossing. -/
theorem swapIter_uninitialized_crossing (env : SwapEnv) (z : Bool) (sp : Int) (s : SwapState)
    (hreach : (swapIter env z sp s).2 = true) :
    (swapIter env z sp s).1.crossedTicks = s.crossedTicks + 1 ∧
    (env.tp.getTick (nextTickOf env z sp s) = none →
      (swapIter env z sp s).1.liquidity = s.liquidity) := by
  have h : (stepOf env z sp s).reached = true := by rw [← swapIter_snd]; exact hreach
  rw [swapIter_reached env z sp s h]
  exact ⟨rfl, fun hnone => by simp [crossLiquidity, hnone]⟩

/-- A tick-data source with no rows at all: every `nextInit` lookup
falls back to the spacing-derived neighbor and every `getTick` lookup
misses. -/
def emptyTicks : TickProvider := { nextInit := fun _ _ => none, getTick := fun _ => none }

/-- A concrete environment for witnesses: a strictly monotone stand-in
for the float tick-to-price conversion (`Q96 + t * 2^90`, increasing in
`t` like `1.0001^(t/2) * 2^96`), a zero log conversion, and an empty
tick table. -/
def envU : SwapEnv :=
  { sqrtAtTick := fun t => Q96 + t * 2 ^ 90, logTick := fun _ => 0, tp := emptyTicks }

/-- A concrete loop state at tick 0 / price `2^96` with liquidity `10^6`
and remainder `10^40`. -/
def sU : SwapState := ⟨Q96, 1000000, 0, 10 ^ 40, 0, 0⟩

/-- Witness for C10: a decreasing-direction step from `sU` crosses the
spacing-derived fallback boundary (tick −60, no `TickInfo` row); the
crossing counter increments and liquidity is unchanged. -/
theorem swapIter_uninitialized_crossing_witness :
    (swapIter envU true 60 sU).2 = true ∧
    ((swapIter envU true 60 sU).1.crossedTicks = sU.crossedTicks + 1 ∧
     (envU.tp.getTick (nextTickOf envU true 60 sU) = none →
       (swapIter envU true 60 sU).1.liquidity = sU.liquidity)) :=
  ⟨by decide, swapIter_uninitialized_crossing envU true 60 sU (by decide)⟩

/-! ## C1: price/tick consistency after a crossing -/

/-- The environment exhibiting the C1 defect: the same monotone
stand-in conversion, with an initialized tick at index 10. -/
def envM : SwapEnv :=
  { sqrtAtTick := fun t => Q96 + t * 2 ^ 90, logTick := fun _ => 0,
    tp := { nextInit := fun _ _ => some 10, getTick := fun _ => none } }

/-- Claim C1 evaluated at its failing input: an increasing-price
crossing (tick spacing 10, next initialized tick 10).  The loop body
sets `tickCurrent` to the boundary tick 10 but sets the price to
`getSqrtPriceAtTick(nextTick + tickSpacing)` — the price of tick 20
(source lines 347-349 compute the target from `nextTick + tickSpacing`,
lines 408-409 assign `currentTick = nextTick` and
`currentSqrtPriceX96 = sqrtPriceNextX96`).  So after the crossing the
price is not `getSqrtPriceAtTick(tickCurrent)`, contradicting the
claimed invariant (which does hold in the decreasing direction) and
the source's own comment "跨tick时：price = 1.0001^nextTick".  Any
strictly monotone conversion exhibits the mismatch; the model's
`envM.sqrtAtTick` is one such. -/
theorem swapIter_crossing_price_tick_mismatch :
    (swapIter envM false 10 sU).2 = true ∧
    (swapIter envM false 10 sU).1.tick = 10 ∧
    (swapIter envM false 10 sU).1.sqrtPrice =
      envM.sqrtAtTick ((swapIter envM false 10 sU).1.tick + 10) ∧
    ¬ (swapIter envM false 10 sU).1.sqrtPrice =
      envM.sqrtAtTick ((swapIter envM false 10 sU).1.tick) := by
  decide

/-! ## C4: monotonicity and liquidity non-negativity across the loop -/

/-- When the tick-to-price conversion is positive, so is every
interval's target price. -/
theorem targetPriceOf_pos (env : SwapEnv) (z : Bool) (sp : Int) (s : SwapState)
    (henv : ∀ t : Int, 0 < env.sqrtAtTick t) : 0 < targetPriceOf env z sp s := by
  unfold targetPriceOf
  split_ifs <;> apply henv

/-- The crossing-time liquidity update never produces a negative value
from a non-negative one: it either clamps at the zero floor or leaves
liquidity unchanged. -/
theorem crossLiquidity_nonneg (env : SwapEnv) (z : Bool) (s : SwapState) (nt : Int)
    (hl : 0 ≤ s.liquidity) : 0 ≤ crossLiquidity env z s nt := by
  unfold crossLiquidity
  cases h : env.tp.getTick nt with
  | none => simpa using hl
  | some ti => simp only; split_ifs <;> omega

/-- Claim C4: across every sequence of loop iterations from a state with
positive price and non-negative liquidity (and any positive
tick-to-price conversion), `amountRemaining` is non-increasing, the
accumulated `amountOut` is non-decreasing, and the current liquidity
stays non-negative after every update.  Quantifying over every fuel
value `n` and start state `s` covers every intermediate state of a run. -/
theorem swapLoop_invariants (env : SwapEnv) (z : Bool) (sp : Int)
    (henv : ∀ t : Int, 0 < env.sqrtAtTick t) :
    ∀ (n : Nat) (s : SwapState), 0 < s.sqrtPrice → 0 ≤ s.liquidity →
      (swapLoop env z sp n s).1.amountRemaining ≤ s.amountRemaining ∧
      s.amountOut ≤ (swapLoop env z sp n s).1.amountOut ∧
      0 ≤ (swapLoop env z sp n s).1.liquidity := by
  intro n
  induction n with
  | zero =>
    intro s hp hl
    exact ⟨le_refl _, le_refl _, hl⟩
  | succ k ih =>
    intro s hp hl
    by_cases hR : 0 < s.amountRemaining
    · have htp : 0 < targetPriceOf env z sp s := targetPriceOf_pos env z sp s henv
      have hin : 0 ≤ (stepOf env z sp s).amountIn := by
        unfold stepOf
        exact computeSwapStep_amountIn_nonneg _ _ _ _ _ hl hp htp hR.le
      have hout : 0 ≤ (stepOf env z sp s).amountOut := by
        unfold stepOf
        exact computeSwapStep_amountOut_nonneg _ _ _ _ _ hl hp htp hR.le
      cases hreach : (stepOf env z sp s).reached with
      | true =>
        have hcont : (swapIter env z sp s).2 = true := by rw [swapIter_snd]; exact hreach
        have hs1 := swapIter_reached env z sp s hreach
        have hp1 : 0 < (swapIter env z sp s).1.sqrtPrice := by rw [hs1]; exact htp
        have hl1 : 0 ≤ (swapIter env z sp s).1.liquidity := by
          rw [hs1]; exact crossLiquidity_nonneg env z s _ hl
        have hrem : (swapIter env z sp s).1.amountRemaining =
            s.amountRemaining - (stepOf env z sp s).amountIn := by rw [hs1]
        have hacc : (swapIter env z sp s).1.amountOut =
            s.amountOut + (stepOf env z sp s).amountOut := by rw [hs1]
        have hloop : swapLoop env z sp (k + 1) s =
            ((swapLoop env z sp k (swapIter env z sp s).1).1,
             (swapLoop env z sp k (swapIter env z sp s).1).2 + 1) := by
          simp [swapLoop, hR, hcont]
        obtain ⟨ih1, ih2, ih3⟩ := ih (swapIter env z sp s).1 hp1 hl1
        rw [hloop]
        dsimp only
        refine ⟨?_, ?_, ih3⟩ <;> omega
      | false =>
        have hcont : (swapIter env z sp s).2 = false := by rw [swapIter_snd]; exact hreach
        have hs1 := swapIter_stalled env z sp s hreach
        have hloop : swapLoop env z sp (k + 1) s = ((swapIter env z sp s).1, 1) := by
          simp [swapLoop, hR, hcont]
        rw [hloop, hs1]
        refine ⟨?_, ?_, hl⟩ <;> dsimp only <;> omega
    · have hloop : swapLoop env z sp (k + 1) s = (s, 0) := by simp [swapLoop, hR]
      rw [hloop]
      exact ⟨le_refl _, le_refl _, hl⟩

/-- An environment with a constant positive tick-to-price conversion
and an empty tick table, for the loop witnesses. -/
def envP : SwapEnv := { sqrtAtTick := fun _ => Q96, logTick := fun _ => 0, tp := emptyTicks }

/-- Witness for C4 at the concrete environment `envP`, start state `sU`
and the implementation's fuel `maxIterations`. -/
theorem swapLoop_invariants_witness :
    (∀ t : Int, 0 < envP.sqrtAtTick t) ∧ 0 < sU.sqrtPrice ∧ 0 ≤ sU.liquidity ∧
    ((swapLoop envP true 60 maxIterations sU).1.amountRemaining ≤ sU.amountRemaining ∧
     sU.amountOut ≤ (swapLoop envP true 60 maxIterations sU).1.amountOut ∧
     0 ≤ (swapLoop envP true 60 maxIterations sU).1.liquidity) :=
  ⟨fun _ => Q96_pos, by decide, by decide,
   swapLoop_invariants envP true 60 (fun _ => Q96_pos) maxIterations sU (by decide) (by decide)⟩

/-! ## C5: termination within the iteration cap -/

/-- The loop executes at most `n` iterations on fuel `n`, and from a
non-negative remainder the remainder stays non-negative: a reaching
step consumes at most the remainder (the reach condition), a stalled
step consumes the remainder exactly, and a degenerate step consumes
nothing. -/
theorem swapLoop_count_le (env : SwapEnv) (z : Bool) (sp : Int) :
    ∀ (n : Nat) (s : SwapState), 0 ≤ s.amountRemaining →
      (swapLoop env z sp n s).2 ≤ n ∧ 0 ≤ (swapLoop env z sp n s).1.amountRemaining := by
  intro n
  induction n with
  | zero =>
    intro s h
    exact ⟨le_refl _, h⟩
  | succ k ih =>
    intro s h
    by_cases hR : 0 < s.amountRemaining
    · have hle : (stepOf env z sp s).amountIn ≤ s.amountRemaining := by
        unfold stepOf
        exact computeSwapStep_amountIn_le _ _ _ _ _ h
      cases hreach : (stepOf env z sp s).reached with
      | true =>
        have hcont : (swapIter env z sp s).2 = true := by rw [swapIter_snd]; exact hreach
        have hs1 := swapIter_reached env z sp s hreach
        have h1 : 0 ≤ (swapIter env z sp s).1.amountRemaining := by rw [hs1]; dsimp only; omega
        have hloop : swapLoop env z sp (k + 1) s =
            ((swapLoop env z sp k (swapIter env z sp s).1).1,
             (swapLoop env z sp k (swapIter env z sp s).1).2 + 1) := by
          simp [swapLoop, hR, hcont]
        obtain ⟨ihc, ihr⟩ := ih (swapIter env z sp s).1 h1
        rw [hloop]
        exact ⟨Nat.succ_le_succ ihc, ihr⟩
      | false =>
        have hcont : (swapIter env z sp s).2 = false := by rw [swapIter_snd]; exact hreach
        have hs1 := swapIter_stalled env z sp s hreach
        have hloop : swapLoop env z sp (k + 1) s = ((swapIter env z sp s).1, 1) := by
          simp [swapLoop, hR, hcont]
        rw [hloop, hs1]
        exact ⟨Nat.succ_le_succ (Nat.zero_le k), by dsimp only; omega⟩
    · have hloop : swapLoop env z sp (k + 1) s = (s, 0) := by simp [swapLoop, hR]
      rw [hloop]
      exact ⟨Nat.zero_le _, h⟩

/-- Claim C5: for every positive fee-adjusted input, every pool state
and every tick-data response, the `swapExactInput` loop run with the
implementation's fuel terminates after at most 1000 iterations (the
configured cap), and the remaining input at termination is
non-negative. -/
theorem swapLoop_iteration_cap (env : SwapEnv) (z : Bool) (pool : PoolState) (afterFee : Int)
    (h : 0 < afterFee) :
    (swapLoop env z (tickSpacingOfFee pool.fee) maxIterations
       ⟨pool.sqrtPriceX96, pool.liquidity, pool.tick, afterFee, 0, 0⟩).2 ≤ 1000 ∧
    0 ≤ (swapLoop env z (tickSpacingOfFee pool.fee) maxIterations
       ⟨pool.sqrtPriceX96, pool.liquidity, pool.tick, afterFee, 0, 0⟩).1.amountRemaining :=
  swapLoop_count_le env z (tickSpacingOfFee pool.fee) maxIterations
    ⟨pool.sqrtPriceX96, pool.liquidity, pool.tick, afterFee, 0, 0⟩ h.le

/-- A concrete pool for the C5 witness: fee tier 3000 (0.3%),
liquidity `10^6`, price `2^96`, tick 0. -/
def poolP : PoolState := ⟨3000, 1000000, Q96, 0⟩

/-- Witness for C5 at `envP` / `poolP` with fee-adjusted input 7. -/
theorem swapLoop_iteration_cap_witness :
    0 < (7 : Int) ∧
    ((swapLoop envP true (tickSpacingOfFee poolP.fee) maxIterations
        ⟨poolP.sqrtPriceX96, poolP.liquidity, poolP.tick, 7, 0, 0⟩).2 ≤ 1000 ∧
     0 ≤ (swapLoop envP true (tickSpacingOfFee poolP.fee) maxIterations
        ⟨poolP.sqrtPriceX96, poolP.liquidity, poolP.tick, 7, 0, 0⟩).1.amountRemaining) :=
  ⟨by decide, swapLoop_iteration_cap envP true poolP 7 (by decide)⟩

/-! ## C6: quote assembly at a zero initial price -/

/-- A pool whose `sqrtPriceX96` is 1: positive, so it passes the
zero-price guard, yet small enough that the computed `initialPrice`
(`(1/2^96)^2` truncated) is 0.  Fee tier 3000, liquidity 10, tick 0. -/
def poolZ : PoolState := ⟨3000, 10, 1, 0⟩

/-- Claim C6 refuted at a concrete input: with `poolZ` (price passes the
guards but `initialPrice = 0`) `CalculateQuoteV3` does not fail — it
returns a successful quote with `priceImpact = 0`, because the source
computes the impact only under `initialPrice.Cmp(big.NewInt(0)) > 0`
and otherwise keeps the initial `0.0`.  (At `sqrtPriceX96 = 1` the
source's big.Float computation of the price is exact, so the exact
model agrees with it.) -/
theorem calculateQuoteV3_zero_initial_price_ok :
    sqrtPriceX96ToPrice poolZ.sqrtPriceX96 true = 0 ∧
    calculateQuoteV3 envP poolZ true 1000000 = .ok ⟨0, 1000000, 0, 1, 0, 0, 0, 0⟩ :=
  ⟨rfl, rfl⟩

/-- Claim C6 as amended: when the computed initial price is 0 (and the
explicit guards pass), the quote assembly still returns a successful
`QuoteResult`, with `priceImpact = 0` — the price-impact division is
skipped, not reported as an error. -/
theorem calculateQuoteV3_zero_initial_price_succeeds (env : SwapEnv) (pool : PoolState)
    (b : Bool) (a : Int)
    (h1 : pool.liquidity ≠ 0) (h2 : pool.sqrtPriceX96 ≠ 0) (h3 : 0 < a)
    (h4 : 0 < Int.ediv (a * (1000000 - pool.fee)) 1000000)
    (h5 : sqrtPriceX96ToPrice pool.sqrtPriceX96 b = 0) :
    ∃ qr : QuoteResult, calculateQuoteV3 env pool b a = .ok qr ∧ qr.priceImpact = 0 := by
  unfold calculateQuoteV3
  rw [if_neg h1, if_neg h2, if_neg (not_le.mpr h3), if_neg (not_le.mpr h4)]
  simp only [h5]
  exact ⟨_, rfl, rfl⟩

/-- Witness for the amended C6 at `envP` / `poolZ` with input `10^6`. -/
theorem calculateQuoteV3_zero_initial_price_succeeds_witness :
    poolZ.liquidity ≠ 0 ∧ poolZ.sqrtPriceX96 ≠ 0 ∧ 0 < (1000000 : Int) ∧
    0 < Int.ediv (1000000 * (1000000 - poolZ.fee)) 1000000 ∧
    sqrtPriceX96ToPrice poolZ.sqrtPriceX96 true = 0 ∧
    (∃ qr : QuoteResult,
      calculateQuoteV3 envP poolZ true 1000000 = .ok qr ∧ qr.priceImpact = 0) :=
  ⟨by decide, by decide, by decide, by decide, by decide,
   calculateQuoteV3_zero_initial_price_succeeds envP poolZ true 1000000
     (by decide) (by decide) (by decide) (by decide) (by decide)⟩

/-! ## C7: the tick conversion at zero price -/

/-- Claim C7 as amended: on input `sqrtPrice = 0` the conversion's
positive-price guard fails, the logarithm branch is skipped, and the
numeric tick 0 is returned — for every possible positive-branch
computation.  No error is signaled: the Go signature
`getTickAtSqrtPrice(sqrtPriceX96 *big.Int) int64` has no error result. -/
theorem getTickAtSqrtPrice_zero_returns_zero (logTick : Int → Int) :
    getTickAtSqrtPrice logTick 0 = 0 := rfl

/-- Claim C7 refuted concretely: at input 0 the conversion returns the
numeric tick value 0 (here with a positive branch that would return
1234567, showing the branch is bypassed), rather than signaling an
error as the claim states. -/
theorem getTickAtSqrtPrice_zero_counterexample :
    getTickAtSqrtPrice (fun _ => 1234567) 0 = 0 := rfl

/-! ## C9: the direction flag in the price conversion -/

/-- Claim C9: `sqrtPriceX96ToPrice` returns the same value whatever the
`isToken0` flag — the source's inversion branch is empty — so the
quote's `initialPrice`, `finalPrice` and price impact are denominated
as the token1/token0 price in both trade directions. -/
theorem sqrtPriceX96ToPrice_ignores_direction (x : Int) (b1 b2 : Bool) :
    sqrtPriceX96ToPrice x b1 = sqrtPriceX96ToPrice x b2 := rfl

end DexQuote
